import Mathlib

/-!
# Verification of the TI ICDI debug-probe driver (probe-rs, `ti_icdi` module)

A shallow embedding of the GDB-RSP-over-USB transport implemented in
`src/probe-rs/src/probe/ti_icdi/{usb_interface,receive_buffer,gdb_interface,mod}.rs`,
together with theorems settling the frozen claims about it.

Bytes are modelled as `Nat` (values < 256 in all concrete runs; the checksum
takes `% 256` explicitly, mirroring `u8::wrapping_add`). The USB device is
modelled as a script: a list of complete reply frames consumed one per
bulk-read; each outbound frame is recorded in `sent`. Fallible Rust code
returns an `Outcome`, with `.panic` for Rust panics (slice-index violations,
failed `assert_eq!`).
-/

namespace TiIcdi

/-- A byte, as a natural number (< 256 wherever the Rust value is a `u8`). -/
abbrev Byte := Nat

/-- Lower-case hex digit for a value `0 ≤ n < 16`, as its ASCII byte
(`{:x}` formatting). -/
def hexDigitLower (n : Nat) : Byte :=
  if n < 10 then 48 + n else 87 + n

/-- The `width` lower-case hex digits of `n` (Rust `{:08x}` with `width = 8`,
`{:02x}` with `width = 2`; the formatted values are `u8`/`u32`, so they always
fit the width). -/
def toHexLower (n : Nat) (width : Nat) : List Byte :=
  (List.range width).reverse.map fun i => hexDigitLower (n / 16 ^ i % 16)

/-- Two lower-case hex digits of a byte (`{:02x}`). -/
def hex2 (n : Nat) : List Byte := toHexLower n 2

/-- The RSP checksum of a command body: `fold(0u8, wrapping_add)` over the
body's bytes, i.e. the running sum reduced `% 256` at each step
(`send_packet`, usb_interface.rs:219-222). -/
def checksum (body : List Byte) : Nat :=
  body.foldl (fun acc b => (acc + b) % 256) 0

/-- The error values the driver produces (the Rust code wraps most of them in
`anyhow`/`DebugProbeError`; only the tags matter here). -/
inductive IcdiError where
  /-- `"Too many retires"` after three failed ack attempts (usb_interface.rs:249). -/
  | tooManyRetries
  /-- `"ICDI zero length response"` (usb_interface.rs:236). -/
  | zeroLengthResponse
  /-- A bulk read failed (the script had no reply left). -/
  | usbReadError
  /-- `"Malformed ICDI response"`: no `$` or no `#` in the buffer (receive_buffer.rs:51). -/
  | malformedResponse
  /-- `"Empty response payload"` (receive_buffer.rs:58). -/
  | emptyResponse
  /-- `"ICDI command response contained error {code}"` (receive_buffer.rs:71). -/
  | commandFailed (code : Nat)
  /-- `"Err HEX not UTF-8"` (receive_buffer.rs:65). -/
  | errUtf8
  /-- `"Error code decode error"` (receive_buffer.rs:67-69). -/
  | errCodeDecode
  /-- `"OK: missing"` (usb_interface.rs:176). -/
  | okMissing
  /-- `"Short read"` (usb_interface.rs:198). -/
  | shortRead
  deriving DecidableEq, Repr

/-- Result of running a fallible piece of the driver: success, an error value,
or a Rust panic (out-of-bounds slice, failed `assert_eq!`). -/
inductive Outcome (α : Type) where
  | panic : Outcome α
  | err : IcdiError → Outcome α
  | ok : α → Outcome α
  deriving DecidableEq, Repr

/-- The binary escape applied byte-by-byte in `write_mem_int`
(usb_interface.rs:205-213): each of `$` (0x24), `#` (0x23), `}` (0x7d),
`*` (0x2a) becomes `}` followed by the byte XOR 0x20; every other byte is
passed through. -/
def escapeBytes : List Byte → List Byte
  | [] => []
  | b :: rest =>
    if b = 0x24 ∨ b = 0x23 ∨ b = 0x7d ∨ b = 0x2a then
      0x7d :: (b ^^^ 0x20) :: escapeBytes rest
    else
      b :: escapeBytes rest

/-- The stateful unescape of `read_mem_int`'s `filter_map` closure
(usb_interface.rs:178-188): the flag records whether the previous byte was the
escape introducer `}`; an escaped byte is emitted XOR 0x20, a `}` sets the
flag and emits nothing, any other byte is emitted unchanged. -/
def unescapeAux : Bool → List Byte → List Byte
  | _, [] => []
  | true, c :: rest => (c ^^^ 0x20) :: unescapeAux false rest
  | false, c :: rest =>
    if c = 0x7d then unescapeAux true rest else c :: unescapeAux false rest

/-- Decode a `}`-escaped payload (the escape flag starts clear). -/
def unescapeBytes (l : List Byte) : List Byte := unescapeAux false l

/-- Scanner deciding that a byte string contains no raw `$`, `#`, `*`
anywhere and a `}` only as the introducer of an escape pair: the flag records
that the previous byte was an introducer (the following byte is then
unconstrained); a final dangling introducer is rejected. -/
def noRawSpecialFrom : Bool → List Byte → Bool
  | esc, [] => !esc
  | true, _ :: rest => noRawSpecialFrom false rest
  | false, b :: rest =>
    if b = 0x7d then noRawSpecialFrom true rest
    else (b != 0x24 && b != 0x23 && b != 0x2a) && noRawSpecialFrom false rest

/-- A byte string is binary-safe when every `$`, `#`, `}`, `*` in it occurs
only inside an escape pair introduced by `}`. -/
def noRawSpecial (l : List Byte) : Bool := noRawSpecialFrom false l

theorem unescape_escape (bs : List Byte) : unescapeBytes (escapeBytes bs) = bs := by
  unfold unescapeBytes
  induction bs with
  | nil => rfl
  | cons b rest ih =>
    by_cases h : b = 0x24 ∨ b = 0x23 ∨ b = 0x7d ∨ b = 0x2a
    · simp only [escapeBytes, if_pos h, unescapeAux, if_pos rfl]
      simp [Nat.xor_cancel_right, ih]
    · have hb : b ≠ 0x7d := fun hc => h (Or.inr (Or.inr (Or.inl hc)))
      simp only [escapeBytes, if_neg h, unescapeAux, if_neg hb, ih]

theorem noRawSpecial_escape (bs : List Byte) : noRawSpecial (escapeBytes bs) = true := by
  unfold noRawSpecial
  induction bs with
  | nil => rfl
  | cons b rest ih =>
    by_cases h : b = 0x24 ∨ b = 0x23 ∨ b = 0x7d ∨ b = 0x2a
    · simp only [escapeBytes, if_pos h, noRawSpecialFrom, if_pos rfl]
      exact ih
    · push_neg at h
      obtain ⟨h1, h2, h3, h4⟩ := h
      simp only [escapeBytes, if_neg (by tauto : ¬(b = 0x24 ∨ b = 0x23 ∨ b = 0x7d ∨ b = 0x2a)),
        noRawSpecialFrom, if_neg h3]
      simp [h1, h2, h4, ih]

/-- Raw `$` never occurs in escaped output (needed to locate frame markers). -/
theorem escape_no_dollar (bs : List Byte) : 0x24 ∉ escapeBytes bs := by
  induction bs with
  | nil => simp [escapeBytes]
  | cons b rest ih =>
    by_cases h : b = 0x24 ∨ b = 0x23 ∨ b = 0x7d ∨ b = 0x2a
    · simp only [escapeBytes, if_pos h]
      intro hmem
      rcases h with h | h | h | h <;> subst h <;> simp only [List.mem_cons] at hmem <;>
        rcases hmem with h24 | h24 | hmem <;>
          first
            | exact absurd h24 (by decide)
            | exact ih hmem
    · have hb : b ≠ 0x24 := fun hc => h (Or.inl hc)
      simp only [escapeBytes, if_neg h]
      intro hmem
      simp only [List.mem_cons] at hmem
      rcases hmem with h24 | hmem
      · exact hb h24.symm
      · exact ih hmem

/-- Raw `#` never occurs in escaped output (so the frame's own `#` is the
last one in the reply buffer). -/
theorem escape_no_hash (bs : List Byte) : 0x23 ∉ escapeBytes bs := by
  induction bs with
  | nil => simp [escapeBytes]
  | cons b rest ih =>
    by_cases h : b = 0x24 ∨ b = 0x23 ∨ b = 0x7d ∨ b = 0x2a
    · simp only [escapeBytes, if_pos h]
      intro hmem
      rcases h with h | h | h | h <;> subst h <;> simp only [List.mem_cons] at hmem <;>
        rcases hmem with h23 | h23 | hmem <;>
          first
            | exact absurd h23 (by decide)
            | exact ih hmem
    · have hb : b ≠ 0x23 := fun hc => h (Or.inr (Or.inl hc))
      simp only [escapeBytes, if_neg h]
      intro hmem
      simp only [List.mem_cons] at hmem
      rcases hmem with h23 | hmem
      · exact hb h23.symm
      · exact ih hmem

/-- `Iterator::position`: index of the first occurrence of `b`, if any. -/
def firstIdxAux (b : Byte) : List Byte → Option Nat
  | [] => none
  | c :: rest => if c = b then some 0 else (firstIdxAux b rest).map (· + 1)

/-- `Iterator::rposition`: index of the last occurrence of `b`, if any. -/
def lastIdx (b : Byte) (l : List Byte) : Option Nat :=
  (firstIdxAux b l.reverse).map fun i => l.length - 1 - i

/-- `ReceiveBuffer::get_payload` (receive_buffer.rs:45-53): the slice strictly
between the first `$` and the last `#`; a missing marker is a
`Malformed ICDI response` error. A last `#` strictly before the first `$`
makes the Rust range `start + 1..end` panic. -/
def get_payload (buf : List Byte) : Outcome (List Byte) :=
  match firstIdxAux 0x24 buf, lastIdx 0x23 buf with
  | some s, some e =>
    if s + 1 ≤ e then .ok ((buf.take e).drop (s + 1)) else .panic
  | _, _ => .err .malformedResponse

/-- Value of an ASCII hex digit (`0-9`, `a-f`, `A-F`), as accepted by
`from_str_radix(_, 16)`. -/
def hexVal (c : Byte) : Option Nat :=
  if 0x30 ≤ c ∧ c ≤ 0x39 then some (c - 0x30)
  else if 0x61 ≤ c ∧ c ≤ 0x66 then some (c - 0x61 + 10)
  else if 0x41 ≤ c ∧ c ≤ 0x46 then some (c - 0x41 + 10)
  else none

/-- `u8::from_str_radix(s, 16)` on a two-character ASCII string: an optional
leading `+` followed by hex digits; anything else (including a leading `-`,
which underflows `u8`) is an error. -/
def parseU8Hex2 (c1 c2 : Byte) : Option Nat :=
  if c1 = 0x2b then hexVal c2
  else
    match hexVal c1, hexVal c2 with
    | some h, some l => some (16 * h + l)
    | _, _ => none

/-- `str::from_utf8` on exactly two bytes succeeds iff both are ASCII or they
form one two-byte UTF-8 sequence. -/
def isValidUtf8Pair (c1 c2 : Byte) : Bool :=
  (c1 < 0x80 && c2 < 0x80) || (0xc2 ≤ c1 && c1 ≤ 0xdf && 0x80 ≤ c2 && c2 ≤ 0xbf)

/-- The payload classification of `ReceiveBuffer::check_cmd_result`
(receive_buffer.rs:55-76): empty → `EmptyResponse`; starts with `OK` → ok;
first byte `E` → decode `payload[1..3]` as a hex error code (the slice
panics when the payload is shorter than 3 bytes; a non-UTF-8 pair or a
non-hex string is its own error); anything else → ok ("assume ok"). -/
def check_payload (payload : List Byte) : Outcome Unit :=
  match payload with
  | [] => .err .emptyResponse
  | b :: rest =>
    if payload.take 2 = [0x4f, 0x4b] then .ok ()
    else if b = 0x45 then
      match rest with
      | c1 :: c2 :: _ =>
        if isValidUtf8Pair c1 c2 then
          match parseU8Hex2 c1 c2 with
          | some code => .err (.commandFailed code)
          | none => .err .errCodeDecode
        else .err .errUtf8
      | _ => .panic
    else .ok ()

/-- `ReceiveBuffer::check_cmd_result` on a complete reply buffer: extract the
payload, then classify it. -/
def check_cmd_result (buf : List Byte) : Outcome Unit :=
  match get_payload buf with
  | .panic => .panic
  | .err e => .err e
  | .ok payload => check_payload payload

/-- The state one probe run threads along: the negotiated max packet size
(`IcdiUsbInterface.max_packet_size`, initialized to `0x1828` in
`new_from_selector`, usb_interface.rs:115), the scripted reply frames the
mock device will return (consumed one per bulk read), and the outbound
frames written so far. -/
structure IcdiState where
  maxPacketSize : Nat
  replies : List (List Byte)
  sent : List (List Byte)
  deriving DecidableEq, Repr

/-- The ack loop of `send_packet` (usb_interface.rs:224-248) with `fuel`
iterations left: write `frame`, read one reply; first byte `-` → retry;
`+` → return the reply buffer; any other byte → log and retry; an empty
reply is a `zero length response` error; fuel exhausted →
`Too many retires`. Returns the frames written, the unconsumed script, and
the outcome. -/
def send_packet_loop (frame : List Byte) :
    Nat → List (List Byte) → List (List Byte) × List (List Byte) × Outcome (List Byte)
  | 0, rs => ([], rs, .err .tooManyRetries)
  | _ + 1, [] => ([frame], [], .err .usbReadError)
  | n + 1, r :: rs =>
    match r with
    | [] => ([frame], rs, .err .zeroLengthResponse)
    | b :: _ =>
      if b = 0x2d then
        (frame :: (send_packet_loop frame n rs).1, (send_packet_loop frame n rs).2)
      else if b = 0x2b then ([frame], rs, .ok r)
      else
        (frame :: (send_packet_loop frame n rs).1, (send_packet_loop frame n rs).2)

/-- `send_packet` (usb_interface.rs:217-250): `assert_eq!(data[0], b'$')`
(panic otherwise), append `#` and the two lower-case hex digits of the
checksum of everything after the `$`, then run the ack loop with 3 attempts. -/
def send_packet (data : List Byte) (s : IcdiState) : IcdiState × Outcome (List Byte) :=
  match data with
  | 0x24 :: body =>
    let p := send_packet_loop (data ++ 0x23 :: hex2 (checksum body)) 3 s.replies
    ({ s with replies := p.2.1, sent := s.sent ++ p.1 }, p.2.2)
  | _ => (s, .panic)

/-- Modelled from the spec: `new_send_buffer` is referenced by
`gdb_interface.rs` and `mod.rs` but its definition is not under `src/`; per
the spec's send-buffer invariant ("first byte is `$`; framing bytes are
appended only by the framer at send time") it creates a buffer holding the
single byte `$` (its capacity argument does not affect contents). -/
def new_send_buffer : List Byte := [0x24]

/-- `send_cmd` (gdb_interface.rs:92-96): a fresh send buffer extended with the
command bytes, handed to `send_packet`. -/
def send_cmd (cmd : List Byte) (s : IcdiState) : IcdiState × Outcome (List Byte) :=
  send_packet (new_send_buffer ++ cmd) s

/-- The body of an `x`/`X` request header: command letter, 8 hex digits of
address, `,`, 8 hex digits of length (`write!("x{:08x},{:08x}", ..)`). -/
def memReqHeader (letter : Byte) (addr len : Nat) : List Byte :=
  letter :: toHexLower addr 8 ++ 0x2c :: toHexLower len 8

/-- The payload handling of `read_mem_int` after `check_cmd_result`
(usb_interface.rs:173-199): strip the mandatory `OK:` prefix (missing →
`"OK: missing"` error), `}`-unescape the rest, and zip the decoded bytes
into the destination slice of length `len`; the copied count is
`min (decoded length) len`, and the call succeeds only when that count
equals `len` (fewer decoded bytes → `"Short read"`, extra decoded bytes are
simply never pulled from the iterator). -/
def parseMemReadPayload (len : Nat) (payload : List Byte) : Outcome (List Byte) :=
  if payload.take 3 = [0x4f, 0x4b, 0x3a] then
    let decoded := unescapeBytes (payload.drop 3)
    if min decoded.length len = len then .ok (decoded.take len) else .err .shortRead
  else .err .okMissing

/-- `read_mem_int` (usb_interface.rs:165-200): send `x<addr:8hex>,<len:8hex>`,
check the reply, then decode its payload with `parseMemReadPayload`. On
success the returned list is the destination slice's final contents. -/
def read_mem_int (addr len : Nat) (s : IcdiState) : IcdiState × Outcome (List Byte) :=
  let p := send_packet (new_send_buffer ++ memReqHeader 0x78 addr len) s
  (p.1,
    match p.2 with
    | .panic => .panic
    | .err e => .err e
    | .ok buf =>
      match check_cmd_result buf with
      | .panic => .panic
      | .err e => .err e
      | .ok _ =>
        match get_payload buf with
        | .panic => .panic
        | .err e => .err e
        | .ok payload => parseMemReadPayload len payload)

/-- `write_mem_int` (usb_interface.rs:202-215): send
`X<addr:8hex>,<len:8hex>:` followed by the `}`-escaped data, then check the
reply. -/
def write_mem_int (addr : Nat) (data : List Byte) (s : IcdiState) :
    IcdiState × Outcome Unit :=
  let p := send_packet
    (new_send_buffer ++ (memReqHeader 0x58 addr data.length ++ 0x3a :: escapeBytes data)) s
  (p.1,
    match p.2 with
    | .panic => .panic
    | .err e => .err e
    | .ok buf => check_cmd_result buf)

/-- `ICDI_MAX_PACKET_SIZE` (gdb_interface.rs:11): a fixed constant, 2048. -/
def ICDI_MAX_PACKET_SIZE : Nat := 2048

/-- `ICDI_MAX_RW_PACKET` (gdb_interface.rs:12): the per-request memory chunk
size, `(((ICDI_MAX_PACKET_SIZE - 64) / 4) * 4) / 2` = 992 bytes. -/
def ICDI_MAX_RW_PACKET : Nat := ICDI_MAX_PACKET_SIZE.sub 64 / 4 * 4 / 2

/-- The chunk-size formula stated by the spec, as a function of the negotiated
max packet size: `((max − 64) / 4) * 4 / 2`. Written from the spec's words,
for comparison with the source's fixed `ICDI_MAX_RW_PACKET`. -/
def specChunkSize (max : Nat) : Nat := (max - 64) / 4 * 4 / 2

/-- The per-chunk requests `write_mem` (gdb_interface.rs:73-79) issues for a
transfer starting at `addr`: `data.chunks(ICDI_MAX_RW_PACKET)`, the address
advancing by each chunk's length. -/
def writeMemReqs (addr : Nat) (data : List Byte) : List (Nat × List Byte) :=
  if _h : data = [] then []
  else
    (addr, data.take ICDI_MAX_RW_PACKET) ::
      writeMemReqs (addr + (data.take ICDI_MAX_RW_PACKET).length)
        (data.drop ICDI_MAX_RW_PACKET)
termination_by data.length
decreasing_by
  simp only [List.length_drop]
  have : data.length ≠ 0 := fun hl => _h (List.eq_nil_of_length_eq_zero hl)
  have : ICDI_MAX_RW_PACKET = 992 := by decide
  omega

/-- The per-chunk requests `read_mem` (gdb_interface.rs:65-71) issues:
`data.chunks_mut(ICDI_MAX_RW_PACKET)` of an `n`-byte destination, the address
advancing by each chunk's length. -/
def readMemReqs (addr n : Nat) : List (Nat × Nat) :=
  if n = 0 then []
  else
    (addr, min ICDI_MAX_RW_PACKET n) ::
      readMemReqs (addr + min ICDI_MAX_RW_PACKET n) (n - min ICDI_MAX_RW_PACKET n)
termination_by n
decreasing_by
  rename_i h
  have : ICDI_MAX_RW_PACKET = 992 := by decide
  omega

/-- `write_mem` (gdb_interface.rs:73-79): walk `data` in chunks of at most
`ICDI_MAX_RW_PACKET` bytes, one `write_mem_int` per chunk, stopping at the
first failure; the address advances by the chunk's length. -/
def write_mem (addr : Nat) (data : List Byte) (s : IcdiState) :
    IcdiState × Outcome Unit :=
  if _h : data = [] then (s, .ok ())
  else
    match write_mem_int addr (data.take ICDI_MAX_RW_PACKET) s with
    | (s1, .ok _) =>
      write_mem (addr + (data.take ICDI_MAX_RW_PACKET).length)
        (data.drop ICDI_MAX_RW_PACKET) s1
    | (s1, .err e) => (s1, .err e)
    | (s1, .panic) => (s1, .panic)
termination_by data.length
decreasing_by
  simp only [List.length_drop]
  have : data.length ≠ 0 := fun hl => _h (List.eq_nil_of_length_eq_zero hl)
  have : ICDI_MAX_RW_PACKET = 992 := by decide
  omega

/-- `read_mem` (gdb_interface.rs:65-71): fill an `n`-byte destination in
chunks of at most `ICDI_MAX_RW_PACKET` bytes, one `read_mem_int` per chunk,
stopping at the first failure; on success the concatenated chunk contents
are returned. -/
def read_mem (addr n : Nat) (s : IcdiState) : IcdiState × Outcome (List Byte) :=
  if n = 0 then (s, .ok [])
  else
    match read_mem_int addr (min ICDI_MAX_RW_PACKET n) s with
    | (s1, .ok chunk) =>
      match read_mem (addr + min ICDI_MAX_RW_PACKET n) (n - min ICDI_MAX_RW_PACKET n) s1 with
      | (s2, .ok rest) => (s2, .ok (chunk ++ rest))
      | (s2, .err e) => (s2, .err e)
      | (s2, .panic) => (s2, .panic)
    | (s1, .err e) => (s1, .err e)
    | (s1, .panic) => (s1, .panic)
termination_by n
decreasing_by
  rename_i h
  have : ICDI_MAX_RW_PACKET = 992 := by decide
  omega

/-- The bytes of the `qSupported` command. -/
def qSupportedCmd : List Byte :=
  [0x71, 0x53, 0x75, 0x70, 0x70, 0x6f, 0x72, 0x74, 0x65, 0x64]

/-- `IcdiProbe::attach` (mod.rs:68-76): `send_cmd(b"qSupported")` checked with
`check_cmd_result`, then `send_cmd(b"!")` checked the same way. Nothing else:
in particular the reply to `qSupported` is never parsed here. -/
def attach (s : IcdiState) : IcdiState × Outcome Unit :=
  let p1 := send_cmd qSupportedCmd s
  match p1.2 with
  | .panic => (p1.1, .panic)
  | .err e => (p1.1, .err e)
  | .ok buf1 =>
    match check_cmd_result buf1 with
    | .ok _ =>
      let p2 := send_cmd [0x21] p1.1
      match p2.2 with
      | .panic => (p2.1, .panic)
      | .err e => (p2.1, .err e)
      | .ok buf2 => (p2.1, check_cmd_result buf2)
    | .panic => (p1.1, .panic)
    | .err e => (p1.1, .err e)

/-- `run` (gdb_interface.rs:22-27): `send_cmd(b"c")` checked with
`check_cmd_result` (the `.context(..)` only decorates the error message). -/
def run (s : IcdiState) : IcdiState × Outcome Unit :=
  let p := send_cmd [0x63] s
  (p.1,
    match p.2 with
    | .panic => .panic
    | .err e => .err e
    | .ok buf => check_cmd_result buf)

/-- The complete frame `send_packet` writes for a command body: `$`, the body,
`#`, two lower-case hex checksum digits. -/
def frameOfBody (body : List Byte) : List Byte :=
  (0x24 :: body) ++ 0x23 :: hex2 (checksum body)

/-- A scripted `+$OK#9a` reply frame. -/
def okReply : List Byte := [0x2b, 0x24, 0x4f, 0x4b, 0x23, 0x39, 0x61]

/-- A scripted reply to an `x` read: ack, `$`, `OK:` prefix, the `}`-escaped
bytes, `#`, two (dummy) checksum digits. -/
def mockReadReply (d : List Byte) : List Byte :=
  [0x2b, 0x24, 0x4f, 0x4b, 0x3a] ++ escapeBytes d ++ [0x23, 0x30, 0x30]

/-- The frame `write_mem_int` sends for one chunk. -/
def writeFrame (addr : Nat) (d : List Byte) : List Byte :=
  frameOfBody (memReqHeader 0x58 addr d.length ++ 0x3a :: escapeBytes d)

/-- The frame `read_mem_int` sends for one chunk. -/
def readFrame (addr len : Nat) : List Byte :=
  frameOfBody (memReqHeader 0x78 addr len)

theorem checksum_eq_sum (body : List Byte) : checksum body = body.sum % 256 := by
  have key : ∀ (l : List Byte) (a : Nat),
      l.foldl (fun acc b => (acc + b) % 256) (a % 256) = (a + l.sum) % 256 := by
    intro l
    induction l with
    | nil => intro a; simp
    | cons x t ih =>
      intro a
      have h1 : (a % 256 + x) % 256 = (a + x) % 256 := by omega
      simp only [List.foldl_cons, h1, ih (a + x), List.sum_cons]
      ring_nf
  have := key body 0
  simpa [checksum] using this

theorem send_packet_loop_sent_le (frame : List Byte) (n : Nat) (rs : List (List Byte)) :
    (send_packet_loop frame n rs).1.length ≤ n := by
  induction n generalizing rs with
  | zero => simp [send_packet_loop]
  | succ m ih =>
    cases rs with
    | nil => simp [send_packet_loop]
    | cons r rest =>
      cases r with
      | nil => simp [send_packet_loop]
      | cons b t =>
        by_cases hm : b = 0x2d
        · simp only [send_packet_loop, if_pos hm, List.length_cons]
          exact Nat.succ_le_succ (ih rest)
        · by_cases hp : b = 0x2b
          · simp [send_packet_loop, if_neg hm, if_pos hp]
          · simp only [send_packet_loop, if_neg hm, if_neg hp, List.length_cons]
            exact Nat.succ_le_succ (ih rest)

theorem send_packet_loop_sent_all_frame (frame : List Byte) (n : Nat)
    (rs : List (List Byte)) : ∀ g ∈ (send_packet_loop frame n rs).1, g = frame := by
  induction n generalizing rs with
  | zero => simp [send_packet_loop]
  | succ m ih =>
    cases rs with
    | nil => simp [send_packet_loop]
    | cons r rest =>
      cases r with
      | nil => simp [send_packet_loop]
      | cons b t =>
        by_cases hm : b = 0x2d
        · simp only [send_packet_loop, if_pos hm]
          intro g hg
          rcases List.mem_cons.mp hg with h | h
          · exact h
          · exact ih rest g h
        · by_cases hp : b = 0x2b
          · simp [send_packet_loop, if_neg hm, if_pos hp]
          · simp only [send_packet_loop, if_neg hm, if_neg hp]
            intro g hg
            rcases List.mem_cons.mp hg with h | h
            · exact h
            · exact ih rest g h

/-- A reply whose first byte is `+` ends the ack loop at once: the frame is
sent once and the reply is returned. -/
theorem send_packet_ok_step (body : List Byte) (s : IcdiState) (r : List Byte)
    (rs : List (List Byte)) (hr : s.replies = r :: rs) (hh : r.head? = some 0x2b) :
    send_packet (0x24 :: body) s =
      ({ s with replies := rs, sent := s.sent ++ [frameOfBody body] }, .ok r) := by
  match r with
  | rb :: rt =>
    have hb : rb = 0x2b := by simpa using hh
    subst hb
    simp [send_packet, hr, send_packet_loop, frameOfBody]

/-- Locating the payload in a well-formed reply frame `+$<mid>#<d1><d2>`:
whatever `mid` contains, the first `$` is at index 1 and, as long as the two
checksum digits are not `#`, the last `#` is the frame's own. -/
theorem get_payload_framed (mid : List Byte) (d1 d2 : Byte) (h1 : d1 ≠ 0x23)
    (h2 : d2 ≠ 0x23) :
    get_payload ([0x2b, 0x24] ++ mid ++ [0x23, d1, d2]) = .ok mid := by
  have hfirst : firstIdxAux 0x24 ([0x2b, 0x24] ++ mid ++ [0x23, d1, d2]) = some 1 := by
    simp [firstIdxAux]
  have hrev : ([0x2b, 0x24] ++ mid ++ [0x23, d1, d2]).reverse
      = [d2, d1, 0x23] ++ (mid.reverse ++ [0x24, 0x2b]) := by
    simp
  have hlast : lastIdx 0x23 ([0x2b, 0x24] ++ mid ++ [0x23, d1, d2])
      = some (mid.length + 2) := by
    unfold lastIdx
    rw [hrev]
    simp only [firstIdxAux, if_neg h2, if_neg h1, if_pos rfl, Option.map_some]
    have hlen : ([0x2b, 0x24] ++ mid ++ [0x23, d1, d2]).length = mid.length + 5 := by
      simp
    rw [hlen]
    simp
  unfold get_payload
  rw [hfirst, hlast]
  have hle : 1 + 1 ≤ mid.length + 2 := by omega
  dsimp only
  rw [if_pos hle]
  have htake : ([0x2b, 0x24] ++ mid ++ [0x23, d1, d2]).take (mid.length + 2)
      = [0x2b, 0x24] ++ mid := by
    have h5 : [0x2b, 0x24] ++ mid ++ [0x23, d1, d2]
        = ([0x2b, 0x24] ++ mid) ++ [0x23, d1, d2] := by simp
    rw [h5]
    have hlen2 : ([0x2b, 0x24] ++ mid).length = mid.length + 2 := by
      simp only [List.length_append, List.length_cons, List.length_nil]
      omega
    rw [← hlen2, List.take_left]
  rw [htake]
  rfl

/-- `check_cmd_result` accepts any well-formed frame whose payload starts with
`OK`. -/
theorem check_cmd_result_ok_prefix (tail : List Byte) (d1 d2 : Byte) (h1 : d1 ≠ 0x23)
    (h2 : d2 ≠ 0x23) :
    check_cmd_result ([0x2b, 0x24] ++ (0x4f :: 0x4b :: tail) ++ [0x23, d1, d2]) = .ok () := by
  unfold check_cmd_result
  rw [get_payload_framed _ _ _ h1 h2]
  simp [check_payload]

/-- One `read_mem_int` against a scripted `+$OK:<escaped d>#00` reply: the
request frame is `x<addr>,<len>`, and the decoded result is exactly `d`. -/
theorem read_mem_int_mock (addr : Nat) (d : List Byte) (s : IcdiState)
    (rs : List (List Byte)) (hr : s.replies = mockReadReply d :: rs) :
    read_mem_int addr d.length s =
      ({ s with replies := rs, sent := s.sent ++ [readFrame addr d.length] }, .ok d) := by
  have hmock : mockReadReply d
      = [0x2b, 0x24] ++ ([0x4f, 0x4b, 0x3a] ++ escapeBytes d) ++ [0x23, 0x30, 0x30] := by
    simp [mockReadReply]
  have hstep := send_packet_ok_step (memReqHeader 0x78 addr d.length) s
    (mockReadReply d) rs hr (by rw [hmock]; rfl)
  have hgp : get_payload (mockReadReply d) = .ok ([0x4f, 0x4b, 0x3a] ++ escapeBytes d) := by
    rw [hmock]
    exact get_payload_framed _ _ _ (by decide) (by decide)
  have hcheck : check_cmd_result (mockReadReply d) = .ok () := by
    rw [hmock]
    exact check_cmd_result_ok_prefix (0x3a :: escapeBytes d) _ _ (by decide) (by decide)
  have htake3 : ([0x4f, 0x4b, 0x3a] ++ escapeBytes d).take 3 = [0x4f, 0x4b, 0x3a] := rfl
  have hdrop3 : ([0x4f, 0x4b, 0x3a] ++ escapeBytes d).drop 3 = escapeBytes d := rfl
  have hparse : parseMemReadPayload d.length ([0x4f, 0x4b, 0x3a] ++ escapeBytes d)
      = .ok d := by
    unfold parseMemReadPayload
    rw [htake3, if_pos rfl, hdrop3, unescape_escape]
    simp
  unfold read_mem_int
  rw [show new_send_buffer ++ memReqHeader 0x78 addr d.length
      = 0x24 :: memReqHeader 0x78 addr d.length from rfl]
  rw [hstep]
  dsimp only
  rw [hcheck, hgp]
  dsimp only
  rw [hparse]
  rfl

/-- One `write_mem_int` against a scripted `+$OK#9a` reply. -/
theorem write_mem_int_mock (addr : Nat) (d : List Byte) (s : IcdiState)
    (rs : List (List Byte)) (hr : s.replies = okReply :: rs) :
    write_mem_int addr d s =
      ({ s with replies := rs, sent := s.sent ++ [writeFrame addr d] }, .ok ()) := by
  have hstep := send_packet_ok_step (memReqHeader 0x58 addr d.length ++ 0x3a :: escapeBytes d)
    s okReply rs hr (by rfl)
  unfold write_mem_int
  rw [show new_send_buffer ++ (memReqHeader 0x58 addr d.length ++ 0x3a :: escapeBytes d)
      = 0x24 :: (memReqHeader 0x58 addr d.length ++ 0x3a :: escapeBytes d) from rfl]
  rw [hstep]
  dsimp only
  rw [show check_cmd_result okReply = .ok () from by decide]
  rfl

theorem writeMemReqs_nil (addr : Nat) : writeMemReqs addr [] = [] := by
  rw [writeMemReqs]
  exact dif_pos rfl

theorem writeMemReqs_cons (addr : Nat) (data : List Byte) (h : data ≠ []) :
    writeMemReqs addr data =
      (addr, data.take ICDI_MAX_RW_PACKET) ::
        writeMemReqs (addr + (data.take ICDI_MAX_RW_PACKET).length)
          (data.drop ICDI_MAX_RW_PACKET) := by
  rw [writeMemReqs]
  exact dif_neg h

theorem writeMemReqs_join (data : List Byte) (addr : Nat) :
    ((writeMemReqs addr data).map Prod.snd).flatten = data := by
  by_cases h : data = []
  · subst h
    simp [writeMemReqs_nil]
  · rw [writeMemReqs_cons addr data h]
    simp only [List.map_cons, List.flatten_cons]
    rw [writeMemReqs_join (data.drop ICDI_MAX_RW_PACKET)
      (addr + (data.take ICDI_MAX_RW_PACKET).length)]
    exact List.take_append_drop _ _
termination_by data.length
decreasing_by
  simp only [List.length_drop]
  have hlen : data.length ≠ 0 := fun hl => h (List.eq_nil_of_length_eq_zero hl)
  have hK : ICDI_MAX_RW_PACKET = 992 := by decide
  omega

theorem writeMemReqs_chunk_bounds (data : List Byte) (addr : Nat) :
    ∀ p ∈ writeMemReqs addr data, p.2.length ≤ ICDI_MAX_RW_PACKET ∧ p.2 ≠ [] := by
  by_cases h : data = []
  · subst h
    simp [writeMemReqs_nil]
  · rw [writeMemReqs_cons addr data h]
    intro p hp
    rcases List.mem_cons.mp hp with hh | hh
    · subst hh
      dsimp only
      constructor
      · simp [List.length_take]
      · have hK : ICDI_MAX_RW_PACKET = 992 := by decide
        have hlen : data.length ≠ 0 := fun hl => h (List.eq_nil_of_length_eq_zero hl)
        intro he
        have h0 := congrArg List.length he
        simp only [List.length_take, List.length_nil] at h0
        omega
    · exact writeMemReqs_chunk_bounds (data.drop ICDI_MAX_RW_PACKET)
        (addr + (data.take ICDI_MAX_RW_PACKET).length) p hh
termination_by data.length
decreasing_by
  simp only [List.length_drop]
  have hlen : data.length ≠ 0 := fun hl => h (List.eq_nil_of_length_eq_zero hl)
  have hK : ICDI_MAX_RW_PACKET = 992 := by decide
  omega

theorem writeMemReqs_advance (data : List Byte) (addr i : Nat)
    (h : i + 1 < (writeMemReqs addr data).length) :
    ((writeMemReqs addr data).getD (i + 1) (0, [])).1
      = ((writeMemReqs addr data).getD i (0, [])).1
        + ((writeMemReqs addr data).getD i (0, [])).2.length := by
  have hne : data ≠ [] := by
    intro he
    rw [he, writeMemReqs_nil] at h
    simp at h
  rw [writeMemReqs_cons addr data hne] at h ⊢
  cases i with
  | zero =>
    have h0 : 0 < (writeMemReqs (addr + (data.take ICDI_MAX_RW_PACKET).length)
        (data.drop ICDI_MAX_RW_PACKET)).length := by
      simp only [List.length_cons] at h
      omega
    have htl : data.drop ICDI_MAX_RW_PACKET ≠ [] := by
      intro he
      rw [he, writeMemReqs_nil] at h0
      simp at h0
    rw [writeMemReqs_cons _ _ htl]
    simp [List.getD]
  | succ j =>
    have h' : j + 1 < (writeMemReqs (addr + (data.take ICDI_MAX_RW_PACKET).length)
        (data.drop ICDI_MAX_RW_PACKET)).length := by
      simp only [List.length_cons] at h
      omega
    have hrec := writeMemReqs_advance (data.drop ICDI_MAX_RW_PACKET)
      (addr + (data.take ICDI_MAX_RW_PACKET).length) j h'
    simpa [List.getD_cons_succ] using hrec
termination_by data.length
decreasing_by
  simp only [List.length_drop]
  have hlen : data.length ≠ 0 := fun hl => hne (List.eq_nil_of_length_eq_zero hl)
  have hK : ICDI_MAX_RW_PACKET = 992 := by decide
  omega

/-- `write_mem` against a script of one `+$OK#9a` per chunk: it sends exactly
one `X` frame per chunk of `writeMemReqs` and succeeds. -/
theorem write_mem_script (data : List Byte) (addr : Nat) (s : IcdiState)
    (hr : s.replies = List.replicate (writeMemReqs addr data).length okReply) :
    write_mem addr data s =
      ({ s with
          replies := [],
          sent := s.sent ++ (writeMemReqs addr data).map (fun p => writeFrame p.1 p.2) },
        .ok ()) := by
  by_cases h : data = []
  · subst h
    rw [writeMemReqs_nil] at hr ⊢
    simp only [List.length_nil, List.replicate_zero] at hr
    rw [write_mem]
    simp only [dif_pos rfl, List.map_nil, List.append_nil]
    cases s
    simp_all
  · rw [write_mem, dif_neg h]
    rw [writeMemReqs_cons addr data h] at hr
    simp only [List.length_cons, List.replicate_succ] at hr
    have hw := write_mem_int_mock addr (data.take ICDI_MAX_RW_PACKET) s
      (List.replicate (writeMemReqs (addr + (data.take ICDI_MAX_RW_PACKET).length)
        (data.drop ICDI_MAX_RW_PACKET)).length okReply) hr
    rw [hw]
    have hrec := write_mem_script (data.drop ICDI_MAX_RW_PACKET)
      (addr + (data.take ICDI_MAX_RW_PACKET).length)
      ({ s with
          replies := List.replicate (writeMemReqs
            (addr + (data.take ICDI_MAX_RW_PACKET).length)
            (data.drop ICDI_MAX_RW_PACKET)).length okReply,
          sent := s.sent ++ [writeFrame addr (data.take ICDI_MAX_RW_PACKET)] })
      rfl
    dsimp only
    rw [hrec]
    rw [writeMemReqs_cons addr data h]
    simp
termination_by data.length
decreasing_by
  simp only [List.length_drop]
  have hlen : data.length ≠ 0 := fun hl => h (List.eq_nil_of_length_eq_zero hl)
  have hK : ICDI_MAX_RW_PACKET = 992 := by decide
  omega

/-- `read_mem` against a script of one `+$OK:<escaped chunk>#00` per chunk of
`data`: it sends exactly one `x` frame per chunk of `writeMemReqs`, with the
chunk's address and length, and returns `data` reassembled. -/
theorem read_mem_script (data : List Byte) (addr : Nat) (s : IcdiState)
    (hr : s.replies = (writeMemReqs addr data).map (fun p => mockReadReply p.2)) :
    read_mem addr data.length s =
      ({ s with
          replies := [],
          sent := s.sent ++ (writeMemReqs addr data).map (fun p => readFrame p.1 p.2.length) },
        .ok data) := by
  by_cases h : data = []
  · subst h
    rw [writeMemReqs_nil] at hr ⊢
    simp only [List.map_nil] at hr
    rw [read_mem]
    simp only [List.length_nil, if_pos rfl, List.map_nil, List.append_nil]
    cases s
    simp_all
  · have hlen0 : data.length ≠ 0 := fun hl => h (List.eq_nil_of_length_eq_zero hl)
    rw [read_mem, if_neg hlen0]
    have hminlen : min ICDI_MAX_RW_PACKET data.length
        = (data.take ICDI_MAX_RW_PACKET).length := by
      simp [List.length_take]
    rw [writeMemReqs_cons addr data h] at hr
    simp only [List.map_cons] at hr
    have hd := read_mem_int_mock addr (data.take ICDI_MAX_RW_PACKET) s
      ((writeMemReqs (addr + (data.take ICDI_MAX_RW_PACKET).length)
        (data.drop ICDI_MAX_RW_PACKET)).map (fun p => mockReadReply p.2)) hr
    rw [hminlen, hd]
    have hdroplen : data.length - (data.take ICDI_MAX_RW_PACKET).length
        = (data.drop ICDI_MAX_RW_PACKET).length := by
      simp only [List.length_take, List.length_drop]
      omega
    rw [hdroplen]
    have hrec := read_mem_script (data.drop ICDI_MAX_RW_PACKET)
      (addr + (data.take ICDI_MAX_RW_PACKET).length)
      ({ s with
          replies := (writeMemReqs (addr + (data.take ICDI_MAX_RW_PACKET).length)
            (data.drop ICDI_MAX_RW_PACKET)).map (fun p => mockReadReply p.2),
          sent := s.sent ++ [readFrame addr (data.take ICDI_MAX_RW_PACKET).length] })
      rfl
    dsimp only
    rw [hrec]
    rw [writeMemReqs_cons addr data h]
    simp [List.take_append_drop]
termination_by data.length
decreasing_by
  simp only [List.length_drop]
  have hK : ICDI_MAX_RW_PACKET = 992 := by decide
  omega

theorem send_packet_fst_mps (data : List Byte) (s : IcdiState) :
    ((send_packet data s).1).maxPacketSize = s.maxPacketSize := by
  unfold send_packet
  split
  · rfl
  · rfl

theorem attach_fst_mps (s : IcdiState) :
    ((attach s).1).maxPacketSize = s.maxPacketSize := by
  have h1 := send_packet_fst_mps (new_send_buffer ++ qSupportedCmd) s
  have h2 := send_packet_fst_mps (new_send_buffer ++ [0x21])
    ((send_packet (new_send_buffer ++ qSupportedCmd) s).1)
  simp only [attach, send_cmd]
  split
  · exact h1
  · exact h1
  · split
    · split
      · exact h2.trans h1
      · exact h2.trans h1
      · exact h2.trans h1
    · exact h1
    · exact h1

/-- `send_packet` on a `$`-headed buffer, written out: checksum appended,
ack loop over the script, state updated with the frames written. -/
theorem send_packet_eq (body : List Byte) (s : IcdiState) :
    send_packet (0x24 :: body) s
      = ({ s with
            replies := (send_packet_loop ((0x24 :: body) ++ 0x23 :: hex2 (checksum body))
              3 s.replies).2.1,
            sent := s.sent ++ (send_packet_loop ((0x24 :: body) ++ 0x23 :: hex2 (checksum body))
              3 s.replies).1 },
        (send_packet_loop ((0x24 :: body) ++ 0x23 :: hex2 (checksum body)) 3 s.replies).2.2) :=
  rfl

theorem hexVal_ascii {c : Byte} {h : Nat} (hc : hexVal c = some h) :
    c < 0x80 ∧ c ≠ 0x2b := by
  unfold hexVal at hc
  split_ifs at hc with h1 h2 h3
  · exact ⟨Nat.lt_of_le_of_lt h1.2 (by decide), fun he => absurd h1.1 (by rw [he]; decide)⟩
  · exact ⟨Nat.lt_of_le_of_lt h2.2 (by decide), fun he => absurd h2.1 (by rw [he]; decide)⟩
  · exact ⟨Nat.lt_of_le_of_lt h3.2 (by decide), fun he => absurd h3.1 (by rw [he]; decide)⟩

theorem readMemReqs_nil (addr : Nat) : readMemReqs addr 0 = [] := by
  rw [readMemReqs]
  exact if_pos rfl

theorem readMemReqs_cons (addr n : Nat) (h : n ≠ 0) :
    readMemReqs addr n =
      (addr, min ICDI_MAX_RW_PACKET n) ::
        readMemReqs (addr + min ICDI_MAX_RW_PACKET n) (n - min ICDI_MAX_RW_PACKET n) := by
  rw [readMemReqs]
  exact if_neg h

/-- The scripted `+$PacketSize=1024#00` reply of scenario S1. -/
def packetSizeReply : List Byte :=
  [0x2b, 0x24, 0x50, 0x61, 0x63, 0x6b, 0x65, 0x74, 0x53, 0x69, 0x7a, 0x65, 0x3d,
    0x31, 0x30, 0x32, 0x34, 0x23, 0x30, 0x30]

/-- The outbound frame `$qSupported#37`. -/
def qSupportedFrame : List Byte :=
  0x24 :: qSupportedCmd ++ [0x23, 0x33, 0x37]

/-- The outbound frame `$!#21`. -/
def bangFrame : List Byte := [0x24, 0x21, 0x23, 0x32, 0x31]

/-- The outbound frame `$c#63`. -/
def continueFrame : List Byte := [0x24, 0x63, 0x23, 0x36, 0x33]

/-- **C1, counterexample.** Under scenario S1's script (`+$PacketSize=1024#00`
then `+$OK#9a`), `attach` sends `$qSupported#37` and `$!#21` and succeeds, but
the probe's `max_packet_size` afterwards is still the initial `0x1828`, not
the claimed `0x400`: `attach` never parses the `qSupported` reply. -/
theorem C1_counterexample :
    attach ⟨0x1828, [packetSizeReply, okReply], []⟩
      = (⟨0x1828, [], [qSupportedFrame, bangFrame]⟩, .ok ())
    ∧ ((attach ⟨0x1828, [packetSizeReply, okReply], []⟩).1).maxPacketSize = 0x1828
    ∧ (0x1828 : Nat) ≠ 0x400 := by
  refine ⟨by decide, by decide, by decide⟩

/-- **C1 (amended).** `attach` sends exactly the two frames `$qSupported#37`
then `$!#21` and checks both replies for success, but it never updates the
negotiated max packet size: `max_packet_size` is unchanged by `attach` on
every script, and under scenario S1's script it stays at the initial
`0x1828` (the value set by `new_from_selector`), not `0x400`. -/
theorem C1_attach_frames_no_packet_size_update :
    (∀ s : IcdiState, ((attach s).1).maxPacketSize = s.maxPacketSize)
    ∧ attach ⟨0x1828, [packetSizeReply, okReply], []⟩
        = (⟨0x1828, [], [qSupportedFrame, bangFrame]⟩, .ok ()) :=
  ⟨attach_fst_mps, by decide⟩

/-- **C2, counterexample.** A read of 2 bytes answered with the well-formed
no-prefix reply `+$<0x01 0x02>#00` is rejected by `read_mem_int` with the
`OK: missing` error instead of being decoded: the code does not tolerate
replies without the `OK:` prefix. -/
theorem C2_counterexample :
    read_mem_int 0 2 ⟨0x1828, [[0x2b, 0x24, 0x01, 0x02, 0x23, 0x30, 0x30]], []⟩
      = (⟨0x1828, [], [readFrame 0 2]⟩, .err .okMissing)
    ∧ (read_mem_int 0 2 ⟨0x1828, [[0x2b, 0x24, 0x01, 0x02, 0x23, 0x30, 0x30]], []⟩).2
        ≠ .ok [0x01, 0x02] := by
  refine ⟨by decide, by decide⟩

/-- **C2 (amended).** `read_mem_int` accepts only the `OK:`-prefixed form of
the `x` reply: when the payload starts with `OK:` the prefix is stripped and
the `}`-escaped binary is decoded, but every payload without that prefix is
rejected with the `OK: missing` error rather than decoded. -/
theorem C2_ok_prefix_required :
    (∀ (len : Nat) (p : List Byte), p.take 3 ≠ [0x4f, 0x4b, 0x3a] →
        parseMemReadPayload len p = .err .okMissing)
    ∧ (∀ (len : Nat) (e : List Byte), len ≤ (unescapeBytes e).length →
        parseMemReadPayload len ([0x4f, 0x4b, 0x3a] ++ e)
          = .ok ((unescapeBytes e).take len)) := by
  constructor
  · intro len p h
    unfold parseMemReadPayload
    rw [if_neg h]
  · intro len e hle
    have htake3 : ([0x4f, 0x4b, 0x3a] ++ e).take 3 = [0x4f, 0x4b, 0x3a] := rfl
    have hdrop3 : ([0x4f, 0x4b, 0x3a] ++ e).drop 3 = e := rfl
    unfold parseMemReadPayload
    rw [htake3, if_pos rfl]
    dsimp only
    rw [hdrop3, if_pos (by omega : min (unescapeBytes e).length len = len)]

/-- Witness for C2: the concrete no-prefix payload `[0x01, 0x02]` is rejected,
and the prefixed payload `OK:<0x05>` decodes. -/
theorem C2_witness :
    (([0x01, 0x02] : List Byte).take 3 ≠ [0x4f, 0x4b, 0x3a]
      ∧ parseMemReadPayload 2 [0x01, 0x02] = .err .okMissing)
    ∧ (1 ≤ (unescapeBytes [0x05]).length
      ∧ parseMemReadPayload 1 ([0x4f, 0x4b, 0x3a] ++ [0x05])
          = .ok ((unescapeBytes [0x05]).take 1)) :=
  ⟨⟨by decide, C2_ok_prefix_required.1 2 [0x01, 0x02] (by decide)⟩,
    ⟨by decide, C2_ok_prefix_required.2 1 [0x05] (by decide)⟩⟩

/-- **C3, counterexample.** When every scripted reply starts with `0x30`
(neither `+` nor `-`), `send_packet` does NOT return the frame to the caller:
it resends three times and fails with the too-many-retries error. -/
theorem C3_counterexample :
    send_packet [0x24, 0x63] ⟨0x1828, [[0x30], [0x30], [0x30]], []⟩
      = (⟨0x1828, [], [continueFrame, continueFrame, continueFrame]⟩,
        .err .tooManyRetries)
    ∧ (send_packet [0x24, 0x63] ⟨0x1828, [[0x30], [0x30], [0x30]], []⟩).2
        ≠ .ok [0x30] := by
  refine ⟨by decide, by decide⟩

/-- **C3 (amended).** In the ack loop, a reply frame whose first byte is
neither `+` nor `-` is logged and the attempt is treated as failed: the
outbound frame is resent (consuming one of the bounded attempts), exactly as
for a `-` ack; the frame is not returned to the caller as the reply. -/
theorem C3_other_first_byte_resends :
    ∀ (f : List Byte) (n : Nat) (b : Byte) (t : List Byte) (rs : List (List Byte)),
      b ≠ 0x2b → b ≠ 0x2d →
      send_packet_loop f (n + 1) ((b :: t) :: rs)
        = (f :: (send_packet_loop f n rs).1, (send_packet_loop f n rs).2) := by
  intro f n b t rs hp hm
  simp only [send_packet_loop, if_neg hm, if_neg hp]

/-- Witness for C3: a reply starting with `0x30` is resent. -/
theorem C3_witness :
    ((0x30 : Byte) ≠ 0x2b) ∧ ((0x30 : Byte) ≠ 0x2d)
    ∧ send_packet_loop [0x24, 0x63] 3 [[0x30]]
        = ([0x24, 0x63] :: (send_packet_loop [0x24, 0x63] 2 []).1,
          (send_packet_loop [0x24, 0x63] 2 []).2) :=
  ⟨by decide, by decide,
    C3_other_first_byte_resends [0x24, 0x63] 2 0x30 [] [] (by decide) (by decide)⟩

/-- **C4 (confirmed).** On a `-` ack `send_packet` resends the byte-for-byte
identical frame; a subsequent `+` reply is returned as success; three
consecutive `-` acks exhaust the 3 total attempts and surface the
too-many-retries error; and no call ever writes more than 3 frames. -/
theorem C4_ack_retry :
    (∀ (body t1 r2 : List Byte) (s : IcdiState) (rest : List (List Byte)),
      s.replies = (0x2d :: t1) :: r2 :: rest → r2.head? = some 0x2b →
      send_packet (0x24 :: body) s
        = ({ s with
            replies := rest,
            sent := s.sent ++ [frameOfBody body, frameOfBody body] },
          .ok r2))
    ∧ (∀ (body t1 t2 t3 : List Byte) (s : IcdiState) (rest : List (List Byte)),
      s.replies = (0x2d :: t1) :: (0x2d :: t2) :: (0x2d :: t3) :: rest →
      send_packet (0x24 :: body) s
        = ({ s with
            replies := rest,
            sent := s.sent ++ [frameOfBody body, frameOfBody body, frameOfBody body] },
          .err .tooManyRetries))
    ∧ (∀ (data : List Byte) (s : IcdiState),
      ((send_packet data s).1).sent.length ≤ s.sent.length + 3) := by
  refine ⟨?_, ?_, ?_⟩
  · intro body t1 r2 s rest hr hh
    match r2 with
    | rb :: rt =>
      have hb : rb = 0x2b := by simpa using hh
      subst hb
      rw [send_packet_eq, hr]
      simp [send_packet_loop, frameOfBody]
  · intro body t1 t2 t3 s rest hr
    rw [send_packet_eq, hr]
    simp [send_packet_loop, frameOfBody]
  · intro data s
    unfold send_packet
    split
    · rename_i body
      dsimp only
      have := send_packet_loop_sent_le
        ((0x24 :: body) ++ 0x23 :: hex2 (checksum body)) 3 s.replies
      simp only [List.length_append]
      omega
    · dsimp only
      omega

/-- Witness for C4: one `-` then `+$OK#9a` resends once and succeeds. -/
theorem C4_witness :
    (⟨0x1828, [[0x2d], okReply], []⟩ : IcdiState).replies = (0x2d :: []) :: okReply :: []
    ∧ okReply.head? = some 0x2b
    ∧ send_packet (0x24 :: [0x63]) ⟨0x1828, [[0x2d], okReply], []⟩
        = ({ (⟨0x1828, [[0x2d], okReply], []⟩ : IcdiState) with
            replies := [],
            sent := [] ++ [frameOfBody [0x63], frameOfBody [0x63]] },
          .ok okReply) :=
  ⟨rfl, rfl, C4_ack_retry.1 [0x63] [] okReply ⟨0x1828, [[0x2d], okReply], []⟩ [] rfl rfl⟩

/-- **C5 (confirmed).** Every frame `send_packet` transmits for a `$`-headed
buffer with body `b` is exactly `$ ++ b ++ # ++` the two lower-case hex
digits of `(sum of the bytes of b) mod 256`: the checksum covers the body
only, excluding the leading `$`. -/
theorem C5_framing :
    ∀ (body : List Byte) (s : IcdiState), ∃ k, k ≤ 3 ∧
      ((send_packet (0x24 :: body) s).1).sent
        = s.sent ++ List.replicate k ((0x24 :: body) ++ 0x23 :: hex2 (body.sum % 256)) := by
  intro body s
  have hrep := List.eq_replicate_of_mem
    (send_packet_loop_sent_all_frame ((0x24 :: body) ++ 0x23 :: hex2 (checksum body))
      3 s.replies)
  rw [checksum_eq_sum] at hrep
  refine ⟨(send_packet_loop ((0x24 :: body) ++ 0x23 :: hex2 (body.sum % 256))
    3 s.replies).1.length, ?_, ?_⟩
  · have hle := send_packet_loop_sent_le
      ((0x24 :: body) ++ 0x23 :: hex2 (body.sum % 256)) 3 s.replies
    exact hle
  · rw [send_packet_eq, checksum_eq_sum]
    dsimp only
    conv_lhs => rw [hrep]

/-- **C6 (confirmed).** Escape then unescape is the identity on every byte
sequence; escaped output never contains a raw `$`, `#`, `}`, or `*` except as
the escape introducer; and `write_mem(0x1000, [0x23, 0x24, 0x7d, 0x2a])`
transmits exactly the frame whose body is
`X00001000,00000004:}\x03}\x04}\x5d}\x0a` (checksum `25`) and succeeds on an
`OK` reply. -/
theorem C6_escape_roundtrip :
    (∀ bs : List Byte, unescapeBytes (escapeBytes bs) = bs)
    ∧ (∀ bs : List Byte, noRawSpecial (escapeBytes bs) = true)
    ∧ write_mem 0x1000 [0x23, 0x24, 0x7d, 0x2a] ⟨0x1828, [okReply], []⟩
        = (⟨0x1828, [],
            [[0x24, 0x58, 0x30, 0x30, 0x30, 0x30, 0x31, 0x30, 0x30, 0x30, 0x2c,
              0x30, 0x30, 0x30, 0x30, 0x30, 0x30, 0x30, 0x34, 0x3a,
              0x7d, 0x03, 0x7d, 0x04, 0x7d, 0x5d, 0x7d, 0x0a, 0x23, 0x32, 0x35]]⟩,
          .ok ()) := by
  refine ⟨unescape_escape, noRawSpecial_escape, ?_⟩
  have hreqs : writeMemReqs 0x1000 [0x23, 0x24, 0x7d, 0x2a]
      = [(0x1000, [0x23, 0x24, 0x7d, 0x2a])] := by
    rw [writeMemReqs_cons _ _ (by decide)]
    have ht : List.take ICDI_MAX_RW_PACKET [0x23, 0x24, 0x7d, 0x2a]
        = [0x23, 0x24, 0x7d, 0x2a] := by decide
    have hd : List.drop ICDI_MAX_RW_PACKET [0x23, 0x24, 0x7d, 0x2a] = ([] : List Byte) := by
      decide
    rw [ht, hd, writeMemReqs_nil]
  have hs := write_mem_script [0x23, 0x24, 0x7d, 0x2a] 0x1000 ⟨0x1828, [okReply], []⟩
    (by rw [hreqs]; rfl)
  rw [hs, hreqs]
  decide

/-- **C7, counterexample.** The payload `Ezz` (an `E` followed by two bytes
that are not hex digits) is not treated as success: `check_cmd_result`
returns the error-code decode error for it. -/
theorem C7_counterexample :
    check_payload [0x45, 0x7a, 0x7a] = .err .errCodeDecode
    ∧ check_payload [0x45, 0x7a, 0x7a] ≠ .ok () := by
  refine ⟨by decide, by decide⟩

/-- **C7 (amended).** `check_cmd_result` classifies payloads as: empty →
`EmptyResponse`; starting with `OK` → success; `E` followed by two hex digits
→ failure carrying that code (so reply `E05` to `c` makes `run` fail with
code 5); any payload not starting with `E` → success. A payload starting
with `E` whose next two bytes are not a parseable hex pair yields a UTF-8 or
decode error, not success (and with fewer than 3 bytes it panics, see C10). -/
theorem C7_check_cmd_result_classification :
    check_payload [] = .err .emptyResponse
    ∧ (∀ rest : List Byte, check_payload (0x4f :: 0x4b :: rest) = .ok ())
    ∧ (∀ (c1 c2 : Byte) (rest : List Byte) (hi lo : Nat),
        hexVal c1 = some hi → hexVal c2 = some lo →
        check_payload (0x45 :: c1 :: c2 :: rest) = .err (.commandFailed (16 * hi + lo)))
    ∧ (∀ (b : Byte) (rest : List Byte), b ≠ 0x45 → check_payload (b :: rest) = .ok ())
    ∧ run ⟨0x1828, [[0x2b, 0x24, 0x45, 0x30, 0x35, 0x23, 0x61, 0x61]], []⟩
        = (⟨0x1828, [], [continueFrame]⟩, .err (.commandFailed 5)) := by
  refine ⟨by decide, ?_, ?_, ?_, by decide⟩
  · intro rest
    simp [check_payload]
  · intro c1 c2 rest hi lo h1 h2
    obtain ⟨hlt1, hne1⟩ := hexVal_ascii h1
    obtain ⟨hlt2, _⟩ := hexVal_ascii h2
    have hutf : isValidUtf8Pair c1 c2 = true := by
      unfold isValidUtf8Pair
      simp only [Bool.or_eq_true, Bool.and_eq_true, decide_eq_true_eq]
      exact Or.inl ⟨hlt1, hlt2⟩
    have hparse : parseU8Hex2 c1 c2 = some (16 * hi + lo) := by
      unfold parseU8Hex2
      rw [if_neg hne1, h1, h2]
    have htk : (0x45 :: c1 :: c2 :: rest).take 2 = [0x45, c1] := rfl
    unfold check_payload
    dsimp only
    rw [htk, if_neg (by simp), if_pos rfl]
    simp only [hutf, if_true, hparse]
  · intro b rest hb
    unfold check_payload
    dsimp only
    by_cases hOK : (b :: rest).take 2 = [0x4f, 0x4b]
    · rw [if_pos hOK]
    · rw [if_neg hOK, if_neg hb]

/-- Witness for C7: `E05` is `CommandFailed 5`; a `P...` payload is success. -/
theorem C7_witness :
    hexVal 0x30 = some 0 ∧ hexVal 0x35 = some 5
    ∧ check_payload [0x45, 0x30, 0x35] = .err (.commandFailed (16 * 0 + 5))
    ∧ ((0x50 : Byte) ≠ 0x45) ∧ check_payload [0x50] = .ok () :=
  ⟨by decide, by decide,
    C7_check_cmd_result_classification.2.2.1 0x30 0x35 [] 0 5 (by decide) (by decide),
    by decide, C7_check_cmd_result_classification.2.2.2.1 0x50 [] (by decide)⟩

/-- **C8, counterexample.** The code's chunk size is the fixed
`ICDI_MAX_RW_PACKET = 992`, derived from the constant 2048, not from the
negotiated max packet size: with a negotiated size of `0x400` the claimed
formula gives 480, yet a 992-byte read is issued as a single chunk of 992.
Moreover the claimed "multiple of 4" fails for the formula itself at
`max = 68`, where it yields 2. -/
theorem C8_counterexample :
    specChunkSize 0x400 = 480
    ∧ ICDI_MAX_RW_PACKET = 992
    ∧ readMemReqs 0x20000000 992 = [(0x20000000, 992)]
    ∧ ¬(992 ≤ specChunkSize 0x400)
    ∧ specChunkSize 68 = 2 ∧ ¬(4 ∣ specChunkSize 68) := by
  have hmin : min ICDI_MAX_RW_PACKET 992 = 992 := by decide
  have hreqs : readMemReqs 0x20000000 992 = [(0x20000000, 992)] := by
    rw [readMemReqs_cons _ _ (by decide), hmin]
    have h992 : (992 - 992 : Nat) = 0 := rfl
    rw [h992, readMemReqs_nil]
  exact ⟨by decide, by decide, hreqs, by decide, by decide, by decide⟩

/-- **C8 (amended).** `read_mem` and `write_mem` segment every transfer into
consecutive chunks of at most `ICDI_MAX_RW_PACKET` bytes — a constant equal
to `((2048 − 64) / 4) * 4 / 2 = 992` derived from the fixed
`ICDI_MAX_PACKET_SIZE`, not from the negotiated packet size — with the
address of each per-chunk request advancing by exactly the preceding chunk's
length; 992 is a multiple of 4, and for every `max ≥ 68` the formula yields
an even value at most `(max − 64) / 2` (not always a multiple of 4). -/
theorem C8_chunking_fixed_constant :
    ICDI_MAX_RW_PACKET = specChunkSize ICDI_MAX_PACKET_SIZE
    ∧ ICDI_MAX_RW_PACKET = 992
    ∧ 4 ∣ ICDI_MAX_RW_PACKET
    ∧ (∀ max : Nat, 68 ≤ max → specChunkSize max ≤ (max - 64) / 2 ∧ 2 ∣ specChunkSize max)
    ∧ (∀ (data : List Byte) (addr : Nat),
        ((writeMemReqs addr data).map Prod.snd).flatten = data
        ∧ (∀ p ∈ writeMemReqs addr data, p.2.length ≤ ICDI_MAX_RW_PACKET ∧ p.2 ≠ [])
        ∧ (∀ i, i + 1 < (writeMemReqs addr data).length →
            ((writeMemReqs addr data).getD (i + 1) (0, [])).1
              = ((writeMemReqs addr data).getD i (0, [])).1
                + ((writeMemReqs addr data).getD i (0, [])).2.length))
    ∧ (∀ (data : List Byte) (addr : Nat) (s : IcdiState),
        s.replies = List.replicate (writeMemReqs addr data).length okReply →
        write_mem addr data s
          = ({ s with
              replies := [],
              sent := s.sent ++ (writeMemReqs addr data).map (fun p => writeFrame p.1 p.2) },
            .ok ()))
    ∧ (∀ (data : List Byte) (addr : Nat) (s : IcdiState),
        s.replies = (writeMemReqs addr data).map (fun p => mockReadReply p.2) →
        read_mem addr data.length s
          = ({ s with
              replies := [],
              sent := s.sent ++ (writeMemReqs addr data).map (fun p => readFrame p.1 p.2.length) },
            .ok data)) := by
  refine ⟨by decide, by decide, by decide, ?_, ?_, ?_, ?_⟩
  · intro max hmax
    unfold specChunkSize
    exact ⟨by omega, by omega⟩
  · intro data addr
    exact ⟨writeMemReqs_join data addr, writeMemReqs_chunk_bounds data addr,
      fun i h => writeMemReqs_advance data addr i h⟩
  · intro data addr s hr
    exact write_mem_script data addr s hr
  · intro data addr s hr
    exact read_mem_script data addr s hr

/-- Witness for C8: the formula bound at `max = 68`, and a one-chunk
`write_mem` against an `OK` script. -/
theorem C8_witness :
    (specChunkSize 68 ≤ (68 - 64) / 2 ∧ 2 ∣ specChunkSize 68)
    ∧ write_mem 0x2000 [0xaa]
        ⟨0x1828, List.replicate (writeMemReqs 0x2000 [0xaa]).length okReply, []⟩
        = ({ (⟨0x1828, List.replicate (writeMemReqs 0x2000 [0xaa]).length okReply,
              []⟩ : IcdiState) with
            replies := [],
            sent := [] ++ (writeMemReqs 0x2000 [0xaa]).map (fun p => writeFrame p.1 p.2) },
          .ok ()) :=
  ⟨C8_chunking_fixed_constant.2.2.2.1 68 (by decide),
    C8_chunking_fixed_constant.2.2.2.2.2.1 [0xaa] 0x2000
      ⟨0x1828, List.replicate (writeMemReqs 0x2000 [0xaa]).length okReply, []⟩ rfl⟩

/-- **C9, counterexample.** A per-chunk read of requested length 1 whose
reply decodes to 2 bytes succeeds (returning the first byte) instead of
failing: the decoded count need not equal the request length exactly. -/
theorem C9_counterexample :
    parseMemReadPayload 1 [0x4f, 0x4b, 0x3a, 0x01, 0x02] = .ok [0x01]
    ∧ (unescapeBytes [0x01, 0x02]).length = 2
    ∧ (2 : Nat) ≠ 1
    ∧ parseMemReadPayload 1 [0x4f, 0x4b, 0x3a, 0x01, 0x02] ≠ .err .shortRead := by
  refine ⟨by decide, by decide, by decide, by decide⟩

/-- **C9 (amended).** A per-chunk read of requested length `L` succeeds iff
the number of decoded (unescaped) payload bytes is at least `L` (the first
`L` bytes are copied and any excess is ignored); fewer decoded bytes than
requested fail with the short-read error; a reply decoding to exactly the
requested bytes yields them. -/
theorem C9_short_read_on_fewer_bytes :
    (∀ (len : Nat) (e : List Byte),
        (∃ v, parseMemReadPayload len ([0x4f, 0x4b, 0x3a] ++ e) = .ok v)
          ↔ len ≤ (unescapeBytes e).length)
    ∧ (∀ (len : Nat) (e : List Byte), (unescapeBytes e).length < len →
        parseMemReadPayload len ([0x4f, 0x4b, 0x3a] ++ e) = .err .shortRead)
    ∧ (∀ (addr : Nat) (d : List Byte) (s : IcdiState) (rs : List (List Byte)),
        s.replies = mockReadReply d :: rs →
        read_mem_int addr d.length s
          = ({ s with replies := rs, sent := s.sent ++ [readFrame addr d.length] },
            .ok d)) := by
  have hpar : ∀ (len : Nat) (e : List Byte),
      parseMemReadPayload len ([0x4f, 0x4b, 0x3a] ++ e)
        = if min (unescapeBytes e).length len = len
          then .ok ((unescapeBytes e).take len) else .err .shortRead := by
    intro len e
    have htake3 : ([0x4f, 0x4b, 0x3a] ++ e).take 3 = [0x4f, 0x4b, 0x3a] := rfl
    have hdrop3 : ([0x4f, 0x4b, 0x3a] ++ e).drop 3 = e := rfl
    unfold parseMemReadPayload
    rw [htake3, if_pos rfl]
    dsimp only
    rw [hdrop3]
  refine ⟨?_, ?_, ?_⟩
  · intro len e
    constructor
    · rintro ⟨v, hv⟩
      rw [hpar] at hv
      by_cases hc : min (unescapeBytes e).length len = len
      · omega
      · rw [if_neg hc] at hv
        exact absurd hv (by simp)
    · intro hle
      exact ⟨(unescapeBytes e).take len, by rw [hpar, if_pos (by omega)]⟩
  · intro len e hlt
    rw [hpar, if_neg (by omega)]
  · intro addr d s rs hr
    exact read_mem_int_mock addr d s rs hr

/-- Witness for C9: requesting 3 bytes from a 2-byte reply is a short read;
a 2-byte read against a matching mock reply returns exactly those bytes. -/
theorem C9_witness :
    ((unescapeBytes [0x01, 0x02]).length < 3
      ∧ parseMemReadPayload 3 ([0x4f, 0x4b, 0x3a] ++ [0x01, 0x02]) = .err .shortRead)
    ∧ read_mem_int 0x20000000 ([0x01, 0x02] : List Byte).length
        ⟨0x1828, [mockReadReply [0x01, 0x02]], []⟩
        = ({ (⟨0x1828, [mockReadReply [0x01, 0x02]], []⟩ : IcdiState) with
            replies := [],
            sent := [] ++ [readFrame 0x20000000 ([0x01, 0x02] : List Byte).length] },
          .ok [0x01, 0x02]) :=
  ⟨⟨by decide, C9_short_read_on_fewer_bytes.2.1 3 [0x01, 0x02] (by decide)⟩,
    C9_short_read_on_fewer_bytes.2.2 0x20000000 [0x01, 0x02]
      ⟨0x1828, [mockReadReply [0x01, 0x02]], []⟩ [] rfl⟩

/-- **C10 (confirmed).** `check_cmd_result` panics (out-of-bounds slice
`payload[1..3]`) exactly on the complete payloads that begin with `E` and are
shorter than 3 bytes — e.g. `E` and `E5` — and is total on all others
(empty, `OK`-prefixed, `E` with ≥ 3 bytes, or any other first byte). -/
theorem C10_short_error_payload_panics :
    (∀ p : List Byte, check_payload p = .panic ↔ (p.head? = some 0x45 ∧ p.length < 3))
    ∧ check_payload [0x45] = .panic
    ∧ check_payload [0x45, 0x35] = .panic := by
  refine ⟨?_, by decide, by decide⟩
  intro p
  match p with
  | [] => simp [check_payload]
  | b :: rest =>
    by_cases hOK : (b :: rest).take 2 = [0x4f, 0x4b]
    · rcases rest with _ | ⟨r1, rest'⟩
      · simp at hOK
      · have hb : b = 0x4f ∧ r1 = 0x4b := by simpa using hOK
        unfold check_payload
        dsimp only
        rw [if_pos hOK]
        simp [hb.1]
    · by_cases hE : b = 0x45
      · subst hE
        rcases rest with _ | ⟨c1, rest2⟩
        · simp [check_payload, hOK]
        · rcases rest2 with _ | ⟨c2, r3⟩
          · simp [check_payload, hOK]
          · unfold check_payload
            dsimp only
            rw [if_neg hOK, if_pos rfl]
            apply iff_of_false
            · by_cases hu : isValidUtf8Pair c1 c2 = true
              · rw [if_pos hu]
                cases hp : parseU8Hex2 c1 c2 <;> simp [hp]
              · rw [if_neg hu]
                simp
            · simp only [List.length_cons, not_and]
              intro
              omega
      · unfold check_payload
        dsimp only
        rw [if_neg hOK, if_neg hE]
        simp [hE]

end TiIcdi
